import Mathlib

/-!
Shallow embedding of the two crawler modules of the `fin-data-bot` repository:
`src/taifex_institutional_crawler.py` and `src/taifex_pc_ratio_crawler.py`.

Python dictionaries become association lists, pandas data frames become a
column-list plus row-list structure, filesystem writes become explicit
write-operation lists, network fetches become explicit outcome parameters,
and every fallible step returns an `Except` or `Option` value.
-/

namespace Taifex

/-- Value of one cell of a parsed table or JSON record: a string, a number
(a pandas-parsed numeric cell), or Python `None` / `NaN`. -/
inductive Value where
  | vstr (s : String)
  | vnum (n : Int)
  | vnone
deriving DecidableEq

/-- One row of data, as produced by `DataFrame.to_dict('records')`: an
association list from column names to cell values (keys are distinct in the
Python dict; lookup takes the first match). -/
abbrev Record := List (String × Value)

/-- Dictionary access `item[k]`, returning `none` when `k` is absent
(which in Python raises `KeyError` at use sites that do not guard with
`k in item`). -/
def lookup? (r : Record) (k : String) : Option Value :=
  (r.find? (fun p => p.1 == k)).map (fun p => p.2)

/-- Python truthiness of a cell value (`if item['Date']:`). -/
def truthy : Value → Bool
  | .vstr s => !(s == "")
  | .vnum n => !(n == 0)
  | .vnone => false

/-- Python `>` between two cell values: defined on operands of the same
type (lexicographic by code point for strings), `TypeError` otherwise. -/
def pyGt : Value → Value → Except Unit Bool
  | .vstr a, .vstr b => .ok (decide (b < a))
  | .vnum a, .vnum b => .ok (decide (b < a))
  | _, _ => .error ()

/-- Python `==` between a cell value and a string literal: string equality
when the value is a string, `False` (no error) otherwise. -/
def pyEqStr : Value → String → Bool
  | .vstr a, b => a == b
  | _, _ => false

/-- Helper for `pySplit`: walks the characters, accumulating the current
chunk in reverse. -/
def pySplitAux (c : Char) : List Char → List Char → List (List Char)
  | [], acc => [acc.reverse]
  | x :: xs, acc =>
    if x = c then acc.reverse :: pySplitAux c xs []
    else pySplitAux c xs (x :: acc)

/-- Python `str.split(sep)` with a single-character separator `sep`:
`"a/b".split('/') = ["a","b"]`, `"".split('/') = [""]`. -/
def pySplit (c : Char) (s : String) : List String :=
  (pySplitAux c s.data []).map (fun l => ⟨l⟩)

/-- Numeric value of an ASCII digit character, `none` otherwise. -/
def digitVal (c : Char) : Option Nat :=
  if '0' ≤ c ∧ c ≤ '9' then some (c.toNat - 48) else none

/-- Helper for `pyInt`: folds decimal digits left to right. -/
def digitsToNatAux : Nat → List Char → Option Nat
  | acc, [] => some acc
  | acc, c :: cs =>
    match digitVal c with
    | some d => digitsToNatAux (acc * 10 + d) cs
    | none => none

/-- All-digit parse of a non-empty character list. -/
def digitsToNat : List Char → Option Nat
  | [] => none
  | l => digitsToNatAux 0 l

/-- Python `int(s)` on its sign-and-digits core: an optional `+`/`-` sign
followed by one or more decimal digits; anything else raises `ValueError`
(modelled as `none`). -/
def pyInt (s : String) : Option Int :=
  match s.data with
  | '-' :: rest => (digitsToNat rest).map (fun n => -(n : Int))
  | '+' :: rest => (digitsToNat rest).map (fun n => (n : Int))
  | l => (digitsToNat l).map (fun n => (n : Int))

/-- ASCII digit character for `d < 10`. -/
def digitChar (d : Nat) : Char := Char.ofNat (48 + d)

/-- Fuel-driven decimal rendering of a natural number (most significant
digit first); `fuel ≥ n + 1` is always enough. -/
def natToCharsAux : Nat → Nat → List Char
  | 0, _ => []
  | fuel + 1, n =>
    if n < 10 then [digitChar n]
    else natToCharsAux fuel (n / 10) ++ [digitChar (n % 10)]

/-- Decimal string of a natural number, as Python `str` renders it. -/
def natToString (n : Nat) : String := ⟨natToCharsAux (n + 1) n⟩

/-- Decimal string of an integer, as Python `str` renders it inside an
f-string. -/
def intToString : Int → String
  | .ofNat n => natToString n
  | .negSucc n => ⟨'-' :: (natToString (n + 1)).data⟩

/-- Python `s.replace(c, '')` for a single-character pattern: removes every
occurrence of `c`. -/
def pyStripChar (c : Char) (s : String) : String :=
  ⟨s.data.filter (fun x => x ≠ c)⟩

/-- Date-string localization, the body shared verbatim by both crawlers:
if the string contains `/` and splits into exactly three components and the
first component parses as an integer below 1911, rebuild the string with
that integer plus 1911; otherwise (including `int` parse failure, which is
logged as a warning) return the string unchanged. -/
def localize_date (s : String) : String :=
  if s.data.contains '/' then
    let parts := pySplit '/' s
    if parts.length = 3 then
      match pyInt (parts.headD "") with
      | some y =>
        if y < 1911 then
          intToString (y + 1911) ++ "/" ++ parts.getD 1 "" ++ "/" ++ parts.getD 2 ""
        else s
      | none => s
    else s
  else s

/-- Localization lifted to a cell value: only string cells are touched. -/
def localizeValue : Value → Value
  | .vstr s => .vstr (localize_date s)
  | v => v

/-- Localization lifted to a record: rewrites the `Date` entry when present
(`if 'Date' in item and isinstance(item['Date'], str) and '/' in ...`),
leaves records without a `Date` key unchanged. -/
def localizeRecord (r : Record) : Record :=
  r.map (fun p => if p.1 == "Date" then (p.1, localizeValue p.2) else p)

/-- Comma cleanup of a cell: `item[key].replace(',', '')` on string cells,
non-string cells pass through unchanged. -/
def cleanValueComma : Value → Value
  | .vstr s => .vstr (pyStripChar ',' s)
  | v => v

/-- Ratio cleanup of a cell: `replace(',', '').replace('%', '')` on string
cells, non-string cells pass through unchanged. -/
def cleanValueRatio : Value → Value
  | .vstr s => .vstr (pyStripChar '%' (pyStripChar ',' s))
  | v => v

/-- Applies a cell cleanup to every entry of a record whose key lies in
`keys` (`if key in item and isinstance(item[key], str): ...`). -/
def cleanKeys (keys : List String) (f : Value → Value) (r : Record) : Record :=
  r.map (fun p => if p.1 ∈ keys then (p.1, f p.2) else p)

/-- A pandas data frame: an ordered list of column names and a list of rows,
each row listing the cell values in column order. -/
structure DataFrame where
  cols : List String
  rows : List (List Value)
deriving DecidableEq

/-- Cell of a row `vs` under column name `c` (first matching column). -/
def colVal (cols : List String) (vs : List Value) (c : String) : Option Value :=
  ((cols.zip vs).find? (fun p => p.1 == c)).map (fun p => p.2)

/-- `df.rename(columns={c: e})`: renames every column named `c` to `e`,
touching no row data. -/
def renameCol (df : DataFrame) (c e : String) : DataFrame :=
  ⟨df.cols.map (fun x => if x = c then e else x), df.rows⟩

/-- The institutional crawler's rename loop:
`for ch, en in mapping: if ch in df.columns: df = df.rename(columns={ch: en})`.
The pandas single-dict rename of the ratio crawler has the same effect, since
no mapping target is itself a mapping key. -/
def renamePresent (mapping : List (String × String)) (df : DataFrame) : DataFrame :=
  mapping.foldl (fun d p => if p.1 ∈ d.cols then renameCol d p.1 p.2 else d) df

/-- The headers the warning loop reports as absent:
`for ch, en in mapping: if ch not in df.columns: logger.warning(...)`. -/
def missingHeaders (mapping : List (String × String)) (df : DataFrame) : List String :=
  (mapping.filter (fun p => !(decide (p.1 ∈ df.cols)))).map (fun p => p.1)

/-- `df.to_dict('records')`: one association list per row, pairing column
names with cell values. -/
def toRecords (df : DataFrame) : List Record :=
  df.rows.map (fun vs => df.cols.zip vs)

/-- Python `x.split(' ')[0]` lifted to a cell:
`x.split(' ')[0] if isinstance(x, str) else x`. -/
def deriveContractName : Value → Value
  | .vstr s => .vstr ((pySplit ' ' s).headD "")
  | v => v

/-- The target instrument constant of the institutional crawler. -/
def TARGET : String := "臺股期貨"

/-- `df['ContractName'] = df['Contract'].apply(...)` guarded by
`if 'Contract' in df.columns`: appends the derived-name column; the source
guards this assignment, so a frame without `Contract` is left unchanged. -/
def addContractNameCol (df : DataFrame) : DataFrame :=
  if "Contract" ∈ df.cols then
    ⟨df.cols ++ ["ContractName"],
     df.rows.map (fun vs =>
       vs ++ [deriveContractName ((colVal df.cols vs "Contract").getD .vnone)])⟩
  else df

/-- `tx_df = df[df['ContractName'] == '臺股期貨']`: row filter on the
derived-name column. -/
def filterTarget (df : DataFrame) : DataFrame :=
  ⟨df.cols, df.rows.filter (fun vs => pyEqStr ((colVal df.cols vs "ContractName").getD .vnone) TARGET)⟩

/-- The instrument-filter step of the institutional crawler: a missing
`ContractName` column makes `df['ContractName']` raise `KeyError` (caught by
the top-level handler); an empty filter result fails open and keeps the
unfiltered frame. -/
def instFilterStep (df : DataFrame) : Except Unit DataFrame :=
  if "ContractName" ∈ df.cols then
    let tx := filterTarget df
    if tx.rows.length > 0 then .ok tx else .ok df
  else .error ()

/-- Content of one persisted file: a JSON array of records, or raw text. -/
inductive FileContent where
  | json (data : List Record)
  | text (s : String)
deriving DecidableEq

/-- One filesystem write performed by a crawler. -/
structure WriteOp where
  path : String
  content : FileContent
deriving DecidableEq

/-- Performs a list of writes in order against a filesystem whose
per-path success is `writeOk`; returns the writes actually performed and
whether all of them succeeded (a failing `open`/`write` raises, so nothing
after it is attempted). -/
def doWrites (writeOk : String → Bool) : List WriteOp → List WriteOp × Bool
  | [] => ([], true)
  | w :: ws =>
    if writeOk w.path then
      let r := doWrites writeOk ws
      (w :: r.1, r.2)
    else ([], false)

/-- The common persist-then-return tail of the crawl functions: given the
outcome `w` of `doWrites`, if all writes succeeded return the success path,
otherwise the run's exception handler yields `None`. -/
def writeStage (okPath : String) (w : List WriteOp × Bool) :
    Option String × List WriteOp :=
  if w.2 then (some okPath, w.1) else (none, w.1)

/-- Outcome of `pd.read_html(url)`: the list of tables found on the page,
or any raised transport/parse exception. -/
inductive FetchOutcome where
  | fetchError
  | tables (ts : List DataFrame)

/-- The `__main__` block shared by both crawlers: on a truthy result print
one `RESULT_FILE=` line and exit 0; otherwise print nothing and `exit(1)`.
Returns the stdout lines and the exit status. -/
def pyMain (result : Option String) : List String × Nat :=
  match result with
  | some p => if p.length > 0 then (["RESULT_FILE=" ++ p], 0) else ([], 1)
  | none => ([], 1)

end Taifex

namespace Taifex.Institutional

/-- The `columns_mapping` dict of `taifex_institutional_crawler.py`. -/
def columnsMapping : List (String × String) :=
  [("日期", "Date"),
   ("身份別", "InvestorType"),
   ("多方交易口數", "LongTradeVolume"),
   ("多方交易契約金額(千元)", "LongTradeValue"),
   ("空方交易口數", "ShortTradeVolume"),
   ("空方交易契約金額(千元)", "ShortTradeValue"),
   ("多空交易口數淨額", "NetTradeVolume"),
   ("多空交易契約金額淨額(千元)", "NetTradeValue"),
   ("多方未平倉口數", "LongOIVolume"),
   ("多方未平倉契約金額(千元)", "LongOIValue"),
   ("空方未平倉口數", "ShortOIVolume"),
   ("空方未平倉契約金額(千元)", "ShortOIValue"),
   ("多空未平倉口數淨額", "NetOIVolume"),
   ("多空未平倉契約金額淨額(千元)", "NetOIValue"),
   ("契約", "Contract")]

/-- The six volume keys of the first numeric-cleanup loop. -/
def volumeKeys : List String :=
  ["LongTradeVolume", "ShortTradeVolume", "NetTradeVolume",
   "LongOIVolume", "ShortOIVolume", "NetOIVolume"]

/-- The six value keys of the second numeric-cleanup loop. -/
def valueKeys : List String :=
  ["LongTradeValue", "ShortTradeValue", "NetTradeValue",
   "LongOIValue", "ShortOIValue", "NetOIValue"]

/-- Per-record processing inside `for item in data:` — date localization
(guarded by `'Date' in item`), then comma cleanup of the volume keys, then
comma cleanup of the value keys; every step is key-guarded, so it is total. -/
def processItem (r : Record) : Record :=
  cleanKeys valueKeys cleanValueComma
    (cleanKeys volumeKeys cleanValueComma (localizeRecord r))

/-- Timestamped artifact path `data/institutional_{timestamp}.json`. -/
def outFile (ts : String) : String := "data/institutional_" ++ ts ++ ".json"

/-- Fixed latest-artifact path. -/
def latestFile : String := "data/institutional_latest.json"

/-- Timestamped CSV-fallback artifact path. -/
def csvOutFile (ts : String) : String := "data/institutional_csv_" ++ ts ++ ".json"

/-- Raw-payload companion path of the CSV fallback. -/
def csvRawFile (ts : String) : String := "data/institutional_raw_" ++ ts ++ ".csv"

/-- Table processing of `crawl_institutional_data`: rename the mapped
headers that are present, derive and filter the contract name, convert to
records and run the per-record loop; the filter step's `KeyError`
propagates. -/
def processTable (df : DataFrame) : Except Unit (List Record) :=
  (instFilterStep (addContractNameCol (renamePresent columnsMapping df))).map
    (fun dfx => (toRecords dfx).map processItem)

/-- The body of `crawl_institutional_data` on the first fetched table,
applied to the outcome of `processTable`. -/
def crawlTable (pt : Except Unit (List Record)) (ts : String)
    (writeOk : String → Bool) : Option String × List WriteOp :=
  match pt with
  | .error _ => (none, [])
  | .ok data =>
    writeStage (outFile ts)
      (doWrites writeOk [⟨outFile ts, .json data⟩, ⟨latestFile, .json data⟩])

/-- `crawl_institutional_data()`: primary (HTML-table) fetch. Parameters
stand for the outside world: the `read_html` outcome, the timestamp, and
per-path write success. Returns the Python return value and the writes
actually performed; any exception inside the `try` yields `none`. -/
def crawl_institutional_data (outcome : FetchOutcome) (ts : String)
    (writeOk : String → Bool) : Option String × List WriteOp :=
  match outcome with
  | .fetchError => (none, [])
  | .tables [] => (none, [])
  | .tables (df :: _) => crawlTable (processTable df) ts writeOk

/-- Big5 bytes of the "no data found" sentinel checked against
`response.content`. -/
def noDataSentinel : List Nat :=
  [0xb7, 0x6a, 0xb5, 0x4c, 0xb8, 0xea, 0xae, 0xc6]

/-- Big5 bytes of the "date/time error" sentinel checked against
`response.content`. -/
def badDateSentinel : List Nat :=
  [0xa6, 0xdc, 0xb8, 0xb9, 0xae, 0xc9, 0xb6, 0xa1, 0xc3, 0xf8, 0xbf, 0xf2]

/-- Python `pat in body` on byte strings: contiguous-subsequence test. -/
def hasInfix (pat : List Nat) : List Nat → Bool
  | [] => pat.isEmpty
  | x :: xs => pat.isPrefixOf (x :: xs) || hasInfix pat xs

/-- The outside world of `download_csv_data()`: the response body bytes
(`none` when `requests.post` or `raise_for_status` raises), the Big5
lossy decoder (total: `errors='ignore'` never fails), and the
`pd.read_csv` parse, which may raise. -/
structure CsvFetch where
  content : Option (List Nat)
  decode : List Nat → String
  parse : String → Except Unit (List Record)

/-- The parse-and-persist tail of `download_csv_data`, applied to the
decoded text and the outcome of `pd.read_csv`. -/
def downloadParsed (csvContent : String) (pr : Except Unit (List Record))
    (ts : String) (writeOk : String → Bool) : Option String × List WriteOp :=
  match pr with
  | .error _ => (none, [])
  | .ok data =>
    writeStage (csvOutFile ts)
      (doWrites writeOk
        [⟨csvOutFile ts, .json data⟩, ⟨csvRawFile ts, .text csvContent⟩])

/-- The body of `download_csv_data` once a response body has arrived:
sentinel checks precede decode and parse. -/
def downloadBody (cf : CsvFetch) (body : List Nat) (ts : String)
    (writeOk : String → Bool) : Option String × List WriteOp :=
  if hasInfix noDataSentinel body then (none, [])
  else if hasInfix badDateSentinel body then (none, [])
  else downloadParsed (cf.decode body) (cf.parse (cf.decode body)) ts writeOk

/-- `download_csv_data()`: the CSV fallback. Checks the two sentinel byte
sequences against the raw body before any decode or parse; on success
writes the timestamped JSON artifact and the raw decoded payload. -/
def download_csv_data (cf : CsvFetch) (ts : String)
    (writeOk : String → Bool) : Option String × List WriteOp :=
  match cf.content with
  | none => (none, [])
  | some body => downloadBody cf body ts writeOk

/-- One step of the latest-date loop of `check_and_crawl`, applied to the
looked-up `Date` value of the current record:
`if 'Date' in item and item['Date']:` then
`if latest_date is None or item['Date'] > latest_date: latest_date = ...`;
a cross-type comparison raises (caught by the enclosing handler). -/
def latestStep (acc : Option Value) (dv : Option Value) : Except Unit (Option Value) :=
  match dv with
  | some v =>
    if truthy v then
      match acc with
      | none => .ok (some v)
      | some m =>
        match pyGt v m with
        | .error e => .error e
        | .ok b => .ok (some (if b then v else m))
    else .ok acc
  | none => .ok acc

/-- The latest-date loop over all records of the latest artifact. -/
def latestLoop : List Record → Option Value → Except Unit (Option Value)
  | [], acc => .ok acc
  | r :: rs, acc =>
    match latestStep acc (lookup? r "Date") with
    | .error e => .error e
    | .ok acc2 => latestLoop rs acc2

/-- Representative date of the institutional latest artifact: the maximum
`Date` value over all records, computed by the source's loop. -/
def latestDate (data : List Record) : Except Unit (Option Value) :=
  latestLoop data none

/-- The freshness verdict from the loop's outcome: `need_crawl` stays
`true` on a comparison error or when no date was found, and is cleared
exactly when the found date equals today. -/
def needCrawlVerdict (ld : Except Unit (Option Value)) (today : String) : Bool :=
  match ld with
  | .error _ => true
  | .ok none => true
  | .ok (some d) => !(pyEqStr d today)

/-- The freshness decision of `check_and_crawl`: `latest` is the state of
`data/institutional_latest.json` (`none` = absent, `.error` = unreadable or
unparsable). -/
def needCrawl (latest : Option (Except Unit (List Record))) (today : String) : Bool :=
  match latest with
  | none => true
  | some (.error _) => true
  | some (.ok data) =>
    if data.length > 0 then needCrawlVerdict (latestDate data) today
    else true

/-- Which network fetches a run performed. -/
inductive Attempt where
  | primary
  | csvFallback
deriving DecidableEq

/-- `check_and_crawl()`: freshness gate, then primary crawl with CSV
fallback. Returns the Python return value, the writes performed, and the
fetch attempts made. -/
def check_and_crawl (latest : Option (Except Unit (List Record))) (today : String)
    (primary : FetchOutcome) (cf : CsvFetch) (ts : String)
    (writeOk : String → Bool) : Option String × List WriteOp × List Attempt :=
  if needCrawl latest today then
    let r := crawl_institutional_data primary ts writeOk
    match r.1 with
    | some p => (some p, r.2, [.primary])
    | none =>
      let r2 := download_csv_data cf ts writeOk
      (r2.1, r.2 ++ r2.2, [.primary, .csvFallback])
  else (some latestFile, [], [])

end Taifex.Institutional

namespace Taifex.PcRatio

/-- The `columns_mapping` dict of `taifex_pc_ratio_crawler.py`. -/
def columnsMapping : List (String × String) :=
  [("日期", "Date"),
   ("買權成交量", "CallVolume"),
   ("賣權成交量", "PutVolume"),
   ("買賣權成交量比率%", "PutCallVolumeRatio%"),
   ("買權未平倉量", "CallOI"),
   ("賣權未平倉量", "PutOI"),
   ("買賣權未平倉量比率%", "PutCallOIRatio%")]

/-- The four volume keys of the comma-cleanup loop. -/
def volumeKeys : List String := ["CallVolume", "PutVolume", "CallOI", "PutOI"]

/-- The two percentage keys of the comma-and-percent cleanup loop. -/
def pctKeys : List String := ["PutCallVolumeRatio%", "PutCallOIRatio%"]

/-- Per-record processing inside `for item in data:` — the date branch
reads `item['Date']` unguarded, so a record without a `Date` key raises
`KeyError` (caught by the top-level handler); then both cleanup loops,
which are key-guarded. -/
def processItem (r : Record) : Except Unit Record :=
  match lookup? r "Date" with
  | none => .error ()
  | some _ =>
    .ok (cleanKeys pctKeys cleanValueRatio
          (cleanKeys volumeKeys cleanValueComma (localizeRecord r)))

/-- Sequential processing of all records; the first `KeyError` aborts. -/
def processAll : List Record → Except Unit (List Record)
  | [] => .ok []
  | r :: rs =>
    match processItem r with
    | .error e => .error e
    | .ok r2 =>
      match processAll rs with
      | .error e => .error e
      | .ok rs2 => .ok (r2 :: rs2)

/-- The keys read unguarded by the post-write summary-logging block. -/
def summaryKeys : List String :=
  ["Date", "CallVolume", "PutVolume", "PutCallVolumeRatio%",
   "CallOI", "PutOI", "PutCallOIRatio%"]

/-- Whether the summary-logging block runs without `KeyError` on the first
record. -/
def summaryOk (r : Record) : Bool :=
  summaryKeys.all (fun k => (lookup? r k).isSome)

/-- Timestamped artifact path `data/pc_ratio_{timestamp}.json`. -/
def outFile (ts : String) : String := "data/pc_ratio_" ++ ts ++ ".json"

/-- Fixed latest-artifact path. -/
def latestFile : String := "data/pc_ratio_latest.json"

/-- The post-processing tail of `crawl_pc_ratio`, given the outcome `w` of
`doWrites`: both writes, then the summary-logging block, which reads seven
keys of `data[0]` unguarded — a missing key there raises after the files
are already on disk. -/
def ratioFinish (data : List Record) (ts : String) (w : List WriteOp × Bool) :
    Option String × List WriteOp :=
  if w.2 then
    if data.length > 0 then
      if summaryOk (data.headD []) then (some (outFile ts), w.1)
      else (none, w.1)
    else (some (outFile ts), w.1)
  else (none, w.1)

/-- The body of `crawl_pc_ratio` on the first fetched table, applied to
the outcome of the per-record loop. -/
def crawlTable (pr : Except Unit (List Record)) (ts : String)
    (writeOk : String → Bool) : Option String × List WriteOp :=
  match pr with
  | .error _ => (none, [])
  | .ok data =>
    ratioFinish data ts
      (doWrites writeOk [⟨outFile ts, .json data⟩, ⟨latestFile, .json data⟩])

/-- `crawl_pc_ratio()`: the ratio pipeline's only fetch mode. -/
def crawl_pc_ratio (outcome : FetchOutcome) (ts : String)
    (writeOk : String → Bool) : Option String × List WriteOp :=
  match outcome with
  | .fetchError => (none, [])
  | .tables [] => (none, [])
  | .tables (df :: _) =>
    crawlTable (processAll (toRecords (renamePresent columnsMapping df))) ts writeOk

/-- The freshness verdict of the ratio gate from the first record's
looked-up `Date` value: a missing key raises `KeyError` (caught, leaving
`need_crawl` true). -/
def ratioVerdict (dv : Option Value) (today : String) : Bool :=
  match dv with
  | none => true
  | some d => !(pyEqStr d today)

/-- The freshness decision of the ratio `check_and_crawl`: representative
date is `data[0]['Date']`. -/
def needCrawl (latest : Option (Except Unit (List Record))) (today : String) : Bool :=
  match latest with
  | none => true
  | some (.error _) => true
  | some (.ok []) => true
  | some (.ok (r :: _)) => ratioVerdict (lookup? r "Date") today

/-- `check_and_crawl()` of the ratio crawler: freshness gate, then the
single-mode crawl — no fallback exists. -/
def check_and_crawl (latest : Option (Except Unit (List Record))) (today : String)
    (primary : FetchOutcome) (ts : String)
    (writeOk : String → Bool) : Option String × List WriteOp × List Institutional.Attempt :=
  if needCrawl latest today then
    let r := crawl_pc_ratio primary ts writeOk
    (r.1, r.2, [.primary])
  else (some latestFile, [], [])

end Taifex.PcRatio

namespace Taifex

example : localize_date "111/03/05" = "2022/03/05" := by decide
example : localize_date "2022/03/05" = "2022/03/05" := by decide
example : localize_date "bad/date" = "bad/date" := by decide
example : cleanValueComma (.vstr "1,234") = .vstr "1234" := by decide
example : cleanValueRatio (.vstr "12.5%") = .vstr "12.5" := by decide

theorem lookup?_cons (q : String × Value) (l : Record) (k : String) :
    lookup? (q :: l) k = if q.1 = k then some q.2 else lookup? l k := by
  by_cases h : q.1 = k
  · simp [lookup?, List.find?, h]
  · have hb : (q.1 == k) = false := beq_eq_false_iff_ne.mpr h
    simp [lookup?, List.find?, h, hb]

theorem lookup?_cleanKeys (keys : List String) (f : Value → Value) (r : Record) (k : String) :
    lookup? (cleanKeys keys f r) k =
      if k ∈ keys then (lookup? r k).map f else lookup? r k := by
  induction r with
  | nil => by_cases hk : k ∈ keys <;> simp [cleanKeys, lookup?, hk]
  | cons q l ih =>
    have hstep : cleanKeys keys f (q :: l) =
        (if q.1 ∈ keys then (q.1, f q.2) else q) :: cleanKeys keys f l := rfl
    rw [hstep]
    by_cases hq : q.1 ∈ keys
    · by_cases hqk : q.1 = k
      · subst hqk
        simp [lookup?_cons, hq]
      · simp [lookup?_cons, hq, hqk, ih]
    · by_cases hqk : q.1 = k
      · subst hqk
        simp [lookup?_cons, hq]
      · simp [lookup?_cons, hq, hqk, ih]

theorem inst_volume_not_value :
    ∀ k ∈ Institutional.volumeKeys, k ∉ Institutional.valueKeys := by decide

theorem inst_value_not_volume :
    ∀ k ∈ Institutional.valueKeys, k ∉ Institutional.volumeKeys := by decide

theorem ratio_volume_not_pct :
    ∀ k ∈ PcRatio.volumeKeys, k ∉ PcRatio.pctKeys := by decide

theorem ratio_pct_not_volume :
    ∀ k ∈ PcRatio.pctKeys, k ∉ PcRatio.volumeKeys := by decide

/-- Claim C6: numeric cleanup. In either pipeline, every listed
volume/value field of a record is comma-stripped when its value is a
string; every ratio field is comma- and percent-stripped when its value is
a string; non-string values pass through unchanged; the cleanup functions
are total (never raise). Concretely `"1,234"` becomes `"1234"` and
`"12.5%"` becomes `"12.5"`. -/
theorem c6_numeric_cleanup (q : Record) (k j : String) (s : String) (n : Int)
    (hk : k ∈ Institutional.volumeKeys ∨ k ∈ Institutional.valueKeys)
    (hj : j ∈ PcRatio.volumeKeys ∨ j ∈ PcRatio.pctKeys) :
    lookup? (cleanKeys Institutional.valueKeys cleanValueComma
        (cleanKeys Institutional.volumeKeys cleanValueComma q)) k
      = (lookup? q k).map cleanValueComma
    ∧ lookup? (cleanKeys PcRatio.pctKeys cleanValueRatio
        (cleanKeys PcRatio.volumeKeys cleanValueComma q)) j
      = (lookup? q j).map
          (if j ∈ PcRatio.pctKeys then cleanValueRatio else cleanValueComma)
    ∧ cleanValueComma (.vstr s) = .vstr (pyStripChar ',' s)
    ∧ cleanValueRatio (.vstr s) = .vstr (pyStripChar '%' (pyStripChar ',' s))
    ∧ cleanValueComma (.vnum n) = .vnum n
    ∧ cleanValueRatio (.vnum n) = .vnum n
    ∧ cleanValueComma .vnone = .vnone
    ∧ cleanValueRatio .vnone = .vnone
    ∧ cleanValueComma (.vstr "1,234") = .vstr "1234"
    ∧ cleanValueRatio (.vstr "12.5%") = .vstr "12.5" := by
  refine ⟨?_, ?_, rfl, rfl, rfl, rfl, rfl, rfl, by decide, by decide⟩
  · rcases hk with hk | hk
    · have hnv : k ∉ Institutional.valueKeys := inst_volume_not_value k hk
      rw [lookup?_cleanKeys, if_neg hnv, lookup?_cleanKeys, if_pos hk]
    · have hnv : k ∉ Institutional.volumeKeys := inst_value_not_volume k hk
      rw [lookup?_cleanKeys, if_pos hk, lookup?_cleanKeys, if_neg hnv]
  · rcases hj with hj | hj
    · have hnp : j ∉ PcRatio.pctKeys := ratio_volume_not_pct j hj
      rw [lookup?_cleanKeys, if_neg hnp, lookup?_cleanKeys, if_pos hj, if_neg hnp]
    · have hnv : j ∉ PcRatio.volumeKeys := ratio_pct_not_volume j hj
      rw [lookup?_cleanKeys, if_pos hj, lookup?_cleanKeys, if_neg hnv, if_pos hj]

/-- Witness for C6 at a concrete record and keys. -/
theorem c6_numeric_cleanup_witness :
    lookup? (cleanKeys PcRatio.pctKeys cleanValueRatio
        (cleanKeys PcRatio.volumeKeys cleanValueComma
          [("PutCallOIRatio%", Value.vstr "12.5%")])) "PutCallOIRatio%"
      = some (.vstr "12.5") := by
  have h := (c6_numeric_cleanup [("PutCallOIRatio%", Value.vstr "12.5%")]
    "LongTradeVolume" "PutCallOIRatio%" "" 0
    (Or.inl (by decide)) (Or.inr (by decide))).2.1
  rw [h]
  decide

/-- Joins character chunks with a separator character; the left inverse of
`pySplitAux`. -/
def joinWith (c : Char) : List (List Char) → List Char
  | [] => []
  | [x] => x
  | x :: y :: ys => x ++ c :: joinWith c (y :: ys)

theorem pySplitAux_ne_nil (c : Char) (l acc : List Char) :
    pySplitAux c l acc ≠ [] := by
  induction l generalizing acc with
  | nil => simp [pySplitAux]
  | cons x xs ih =>
    rw [pySplitAux]
    by_cases h : x = c
    · simp [h]
    · simp only [if_neg h]
      exact ih (x :: acc)

theorem joinWith_cons (c : Char) (x : List Char) (l : List (List Char))
    (h : l ≠ []) : joinWith c (x :: l) = x ++ c :: joinWith c l := by
  cases l with
  | nil => exact absurd rfl h
  | cons y ys => rfl

theorem joinWith_pySplitAux (c : Char) (l acc : List Char) :
    joinWith c (pySplitAux c l acc) = acc.reverse ++ l := by
  induction l generalizing acc with
  | nil => simp [pySplitAux, joinWith]
  | cons x xs ih =>
    rw [pySplitAux]
    by_cases h : x = c
    · rw [if_pos h, joinWith_cons c _ _ (pySplitAux_ne_nil c xs [])]
      have := ih []
      simp only [List.reverse_nil, List.nil_append] at this
      rw [this, h]
    · rw [if_neg h, ih (x :: acc)]
      simp

theorem pySplitAux_of_not_contains (c : Char) (l acc : List Char)
    (h : c ∉ l) : pySplitAux c l acc = [acc.reverse ++ l] := by
  induction l generalizing acc with
  | nil => simp [pySplitAux]
  | cons x xs ih =>
    rw [pySplitAux]
    have hx : ¬ x = c := fun he => h (he ▸ List.mem_cons_self x xs)
    rw [if_neg hx, ih (x :: acc) (fun hc => h (List.mem_cons_of_mem x hc))]
    simp

theorem pySplit_contains_of_length_three (s : String)
    (h : (pySplit '/' s).length = 3) : s.data.contains '/' = true := by
  by_contra hc
  have hnc : '/' ∉ s.data := by
    intro hm
    simp only [List.contains] at hc
    exact hc (List.elem_eq_true_of_mem hm)
  have := pySplitAux_of_not_contains '/' s.data [] hnc
  rw [pySplit, this] at h
  simp at h

theorem pySplitAux_head_takeWhile (c : Char) (l acc : List Char) :
    (pySplitAux c l acc).headD [] = acc.reverse ++ l.takeWhile (fun x => x ≠ c) := by
  induction l generalizing acc with
  | nil => simp [pySplitAux]
  | cons x xs ih =>
    rw [pySplitAux]
    by_cases h : x = c
    · simp [h, List.takeWhile_cons]
    · rw [if_neg h, ih (x :: acc)]
      simp [List.takeWhile_cons, h]

/-- Claim C2: date localization. If a string splits on `/` into exactly
three components and the first parses as an integer `y < 1911`, the
localizer returns the string rebuilt with first component `y + 1911`
(and the original string is exactly its three components joined by `/`);
already-western years (`y ≥ 1911`), a component count other than three,
and a non-numeric first component all return the string unchanged. The
localizer is total: parse failure is a logged warning, never an error. -/
theorem c2_date_localization (s : String) :
    ((pySplit '/' s).length = 3 →
      (∀ y : Int, pyInt ((pySplit '/' s).headD "") = some y →
        (y < 1911 →
          localize_date s =
            intToString (y + 1911) ++ "/" ++ (pySplit '/' s).getD 1 "" ++ "/"
              ++ (pySplit '/' s).getD 2 "")
        ∧ (1911 ≤ y → localize_date s = s))
      ∧ (pyInt ((pySplit '/' s).headD "") = none → localize_date s = s)
      ∧ s.data = ((pySplit '/' s).headD "").data ++ '/' ::
          ((pySplit '/' s).getD 1 "").data ++ '/' :: ((pySplit '/' s).getD 2 "").data)
    ∧ ((pySplit '/' s).length ≠ 3 → localize_date s = s) := by
  constructor
  · intro h3
    have hc : s.data.contains '/' = true := pySplit_contains_of_length_three s h3
    obtain ⟨a, b, d, habd⟩ := List.length_eq_three.mp h3
    refine ⟨?_, ?_, ?_⟩
    · intro y hy
      constructor
      · intro hlt
        rw [localize_date]
        simp only [hc, if_true, h3, if_pos, hy, hlt]
      · intro hge
        rw [localize_date]
        simp only [hc, if_true, h3, if_pos, hy]
        rw [if_neg (not_lt.mpr hge)]
    · intro hy
      rw [localize_date]
      simp only [hc, if_true, h3, if_pos, hy]
    · have haux : pySplitAux '/' s.data [] =
          [a.data, b.data, d.data] := by
        have hmap : (pySplitAux '/' s.data []).map (fun l => (⟨l⟩ : String)) = [a, b, d] := by
          rw [← pySplit]; exact habd
        have hlen : (pySplitAux '/' s.data []).length = 3 := by
          have := congrArg List.length hmap
          simpa using this
        obtain ⟨u, v, w, huvw⟩ := List.length_eq_three.mp hlen
        rw [huvw] at hmap
        simp only [List.map_cons, List.map_nil, List.cons.injEq, and_true] at hmap
        rw [huvw, ← hmap.1, ← hmap.2.1, ← hmap.2.2]
      have hjoin := joinWith_pySplitAux '/' s.data []
      rw [haux] at hjoin
      simp only [List.reverse_nil, List.nil_append] at hjoin
      rw [habd]
      simp only [List.headD_cons, List.getD_cons_succ, List.getD_cons_zero]
      rw [← hjoin]
      simp [joinWith]
  · intro h3
    rw [localize_date]
    by_cases hc : s.data.contains '/' = true
    · rw [if_pos hc]
      simp [h3]
    · rw [if_neg hc]

/-- Witness for C2 at the three inputs named by the spec. -/
theorem c2_date_localization_witness :
    localize_date "111/03/05" = "2022/03/05"
    ∧ localize_date "2022/03/05" = "2022/03/05"
    ∧ localize_date "bad/date" = "bad/date" := by
  refine ⟨?_, ?_, ?_⟩
  · have h := ((c2_date_localization "111/03/05").1 (by decide)).1 111 (by decide)
    have := h.1 (by decide)
    rw [this]; decide
  · have h := ((c2_date_localization "2022/03/05").1 (by decide)).1 2022 (by decide)
    exact h.2 (by decide)
  · exact (c2_date_localization "bad/date").2 (by decide)

theorem deriveContractName_vstr (s : String) :
    deriveContractName (.vstr s) = .vstr ⟨s.data.takeWhile (fun x => x ≠ ' ')⟩ := by
  rw [deriveContractName]
  congr 1
  rw [pySplit]
  have h := pySplitAux_head_takeWhile ' ' s.data []
  cases haux : pySplitAux ' ' s.data [] with
  | nil => exact absurd haux (pySplitAux_ne_nil ' ' s.data [])
  | cons u us =>
    rw [haux] at h
    simp only [List.headD_cons] at h
    simp only [List.map_cons, List.headD_cons]
    simp only [List.reverse_nil, List.nil_append] at h
    rw [h]

/-- Claim C4: instrument filter. The derived contract name of a string
cell is its leading space-delimited token (characters up to the first
space); non-string cells are kept as-is. The filter keeps exactly the rows
whose derived name equals the target constant, and when zero rows match it
fails open: the step returns the pre-filter frame unchanged, never an
empty result. -/
theorem c4_instrument_filter (df : DataFrame) (s : String) (n : Int)
    (h1 : "ContractName" ∈ df.cols) :
    deriveContractName (.vstr s) = .vstr ⟨s.data.takeWhile (fun x => x ≠ ' ')⟩
    ∧ deriveContractName (.vnum n) = .vnum n
    ∧ deriveContractName .vnone = .vnone
    ∧ (filterTarget df).rows =
        df.rows.filter
          (fun vs => pyEqStr ((colVal df.cols vs "ContractName").getD .vnone) TARGET)
    ∧ ((filterTarget df).rows = [] → instFilterStep df = .ok df)
    ∧ ((filterTarget df).rows ≠ [] → instFilterStep df = .ok (filterTarget df)) := by
  refine ⟨deriveContractName_vstr s, rfl, rfl, rfl, ?_, ?_⟩
  · intro hempty
    rw [instFilterStep, if_pos h1]
    simp only [hempty, List.length_nil]
    simp
  · intro hne
    rw [instFilterStep, if_pos h1]
    have : (filterTarget df).rows.length > 0 := List.length_pos.mpr hne
    simp only [this, if_pos]

/-- Witness for C4: a frame whose single row does not match the target is
returned unchanged by the filter step. -/
theorem c4_instrument_filter_witness :
    instFilterStep ⟨["ContractName"], [[Value.vstr "X"]]⟩ =
      .ok ⟨["ContractName"], [[Value.vstr "X"]]⟩ := by
  have h := (c4_instrument_filter ⟨["ContractName"], [[Value.vstr "X"]]⟩ "" 0
    (by decide)).2.2.2.2.1
  exact h (by decide)

/-- Claim C8: CSV-fallback sentinel detection. When the raw response body
contains either Big5 sentinel byte sequence, the fallback returns failure
immediately — no decode, no parse, no write (the result is a constant,
independent of the decoder and parser). Otherwise the body is decoded
(the decoder is total: undecodable bytes are dropped, never fatal) and
parsed; a parse failure yields failure with no writes, and a parse success
proceeds to persist. -/
theorem c8_sentinel_detection (cf : Institutional.CsvFetch) (ts : String)
    (writeOk : String → Bool) (body : List Nat)
    (hb : cf.content = some body) :
    (Institutional.hasInfix Institutional.noDataSentinel body = true →
      Institutional.download_csv_data cf ts writeOk = (none, []))
    ∧ (Institutional.hasInfix Institutional.badDateSentinel body = true →
      Institutional.download_csv_data cf ts writeOk = (none, []))
    ∧ (Institutional.hasInfix Institutional.noDataSentinel body = false →
       Institutional.hasInfix Institutional.badDateSentinel body = false →
      (∀ e, cf.parse (cf.decode body) = .error e →
        Institutional.download_csv_data cf ts writeOk = (none, []))
      ∧ (∀ data, cf.parse (cf.decode body) = .ok data →
          writeOk (Institutional.csvOutFile ts) = true →
          writeOk (Institutional.csvRawFile ts) = true →
        Institutional.download_csv_data cf ts writeOk =
          (some (Institutional.csvOutFile ts),
           [⟨Institutional.csvOutFile ts, .json data⟩,
            ⟨Institutional.csvRawFile ts, .text (cf.decode body)⟩]))) := by
  refine ⟨?_, ?_, ?_⟩
  · intro hs
    rw [Institutional.download_csv_data, hb]
    simp [Institutional.downloadBody, hs]
  · intro hs
    rw [Institutional.download_csv_data, hb]
    by_cases h1 : Institutional.hasInfix Institutional.noDataSentinel body = true
    · simp [Institutional.downloadBody, h1]
    · simp [Institutional.downloadBody, h1, hs]
  · intro h1 h2
    constructor
    · intro e he
      rw [Institutional.download_csv_data, hb]
      simp [Institutional.downloadBody, Institutional.downloadParsed, h1, h2, he]
    · intro data hdata hw1 hw2
      rw [Institutional.download_csv_data, hb]
      simp [Institutional.downloadBody, Institutional.downloadParsed, h1, h2,
        hdata, writeStage, doWrites, hw1, hw2]

/-- Witness for C8: the "no data" sentinel as the whole body makes the
fallback fail without writes. -/
theorem c8_sentinel_detection_witness :
    Institutional.download_csv_data
      ⟨some Institutional.noDataSentinel, fun _ => "", fun _ => .ok []⟩
      "20250101000000" (fun _ => true) = (none, []) := by
  have h := (c8_sentinel_detection
    ⟨some Institutional.noDataSentinel, fun _ => "", fun _ => .ok []⟩
    "20250101000000" (fun _ => true) Institutional.noDataSentinel rfl).1
  exact h (by decide)

/-- Claim C5: fallback orchestration. Under a fetch-requiring gate, a
primary failure of the institutional pipeline (for any reason: network or
parse exception, zero tables, or the filter's `KeyError`) leads to exactly
one CSV-fallback attempt whose result becomes the pipeline result, while a
primary success skips the fallback; the ratio pipeline performs only the
primary attempt, so its failure is the pipeline's failure. -/
theorem c5_fallback_orchestration (latest : Option (Except Unit (List Record)))
    (today ts : String) (writeOk : String → Bool) (primary : FetchOutcome)
    (cf : Institutional.CsvFetch)
    (hneed : Institutional.needCrawl latest today = true)
    (hneedR : PcRatio.needCrawl latest today = true) :
    ((Institutional.crawl_institutional_data primary ts writeOk).1 = none →
      Institutional.check_and_crawl latest today primary cf ts writeOk =
        ((Institutional.download_csv_data cf ts writeOk).1,
         (Institutional.crawl_institutional_data primary ts writeOk).2 ++
           (Institutional.download_csv_data cf ts writeOk).2,
         [.primary, .csvFallback]))
    ∧ (∀ p, (Institutional.crawl_institutional_data primary ts writeOk).1 = some p →
      Institutional.check_and_crawl latest today primary cf ts writeOk =
        (some p, (Institutional.crawl_institutional_data primary ts writeOk).2, [.primary]))
    ∧ Institutional.crawl_institutional_data .fetchError ts writeOk = (none, [])
    ∧ Institutional.crawl_institutional_data (.tables []) ts writeOk = (none, [])
    ∧ (∀ df rest,
        instFilterStep (addContractNameCol
          (renamePresent Institutional.columnsMapping df)) = .error () →
        Institutional.crawl_institutional_data (.tables (df :: rest)) ts writeOk = (none, []))
    ∧ PcRatio.check_and_crawl latest today primary ts writeOk =
        ((PcRatio.crawl_pc_ratio primary ts writeOk).1,
         (PcRatio.crawl_pc_ratio primary ts writeOk).2, [.primary])
    ∧ ((PcRatio.crawl_pc_ratio primary ts writeOk).1 = none →
      (PcRatio.check_and_crawl latest today primary ts writeOk).1 = none) := by
  refine ⟨?_, ?_, rfl, rfl, ?_, ?_, ?_⟩
  · intro hc
    rw [Institutional.check_and_crawl, if_pos hneed]
    simp only [hc]
  · intro p hc
    rw [Institutional.check_and_crawl, if_pos hneed]
    simp only [hc]
  · intro df rest hf
    show Institutional.crawlTable (Institutional.processTable df) ts writeOk = (none, [])
    have hpt : Institutional.processTable df = .error () := by
      unfold Institutional.processTable
      rw [hf]
      rfl
    rw [hpt]
    rfl
  · rw [PcRatio.check_and_crawl, if_pos hneedR]
  · intro hc
    rw [PcRatio.check_and_crawl, if_pos hneedR]
    simp only [hc]

/-- Witness for C5: no prior artifact, primary fetch raises, fallback has
no network — the run makes both attempts and fails. -/
theorem c5_fallback_orchestration_witness :
    Institutional.check_and_crawl none "2025/10/12" .fetchError
      ⟨none, fun _ => "", fun _ => .error ()⟩ "20250101000000" (fun _ => true) =
      (none, [], [.primary, .csvFallback]) := by
  have h := (c5_fallback_orchestration none "2025/10/12" "20250101000000"
    (fun _ => true) .fetchError ⟨none, fun _ => "", fun _ => .error ()⟩
    rfl rfl).1 (by decide)
  rw [h]
  decide

theorem writeStage_some_path (w0 : List WriteOp × Bool)
    (okPath p : String) (h : (writeStage okPath w0).1 = some p) :
    p = okPath := by
  unfold writeStage at h
  split at h
  · exact (Option.some.inj h).symm
  · exact absurd h (by simp)

theorem inst_crawl_some_path (primary : FetchOutcome) (ts : String)
    (w : String → Bool) (p : String)
    (h : (Institutional.crawl_institutional_data primary ts w).1 = some p) :
    p = Institutional.outFile ts := by
  cases primary with
  | fetchError => simp [Institutional.crawl_institutional_data] at h
  | tables dfs =>
    cases dfs with
    | nil => simp [Institutional.crawl_institutional_data] at h
    | cons df rest =>
      replace h :
          (Institutional.crawlTable (Institutional.processTable df) ts w).1 = some p := h
      cases hpt : Institutional.processTable df with
      | error e => rw [hpt] at h; simp [Institutional.crawlTable] at h
      | ok data =>
        rw [hpt] at h
        exact writeStage_some_path _ _ p h

theorem download_some_path (cf : Institutional.CsvFetch) (ts : String)
    (w : String → Bool) (p : String)
    (h : (Institutional.download_csv_data cf ts w).1 = some p) :
    p = Institutional.csvOutFile ts := by
  rw [Institutional.download_csv_data] at h
  cases hb : cf.content with
  | none => simp [hb] at h
  | some body =>
    simp only [hb] at h
    unfold Institutional.downloadBody at h
    by_cases h1 : Institutional.hasInfix Institutional.noDataSentinel body = true
    · rw [if_pos h1] at h
      simp at h
    · rw [if_neg h1] at h
      by_cases h2 : Institutional.hasInfix Institutional.badDateSentinel body = true
      · rw [if_pos h2] at h
        simp at h
      · rw [if_neg h2] at h
        cases hp : cf.parse (cf.decode body) with
        | error e => rw [hp] at h; simp [Institutional.downloadParsed] at h
        | ok data =>
          rw [hp] at h
          exact writeStage_some_path _ _ p h

theorem ratio_crawl_some_path (primary : FetchOutcome) (ts : String)
    (w : String → Bool) (p : String)
    (h : (PcRatio.crawl_pc_ratio primary ts w).1 = some p) :
    p = PcRatio.outFile ts := by
  cases primary with
  | fetchError => simp [PcRatio.crawl_pc_ratio] at h
  | tables dfs =>
    cases dfs with
    | nil => simp [PcRatio.crawl_pc_ratio] at h
    | cons df rest =>
      replace h : (PcRatio.crawlTable
          (PcRatio.processAll (toRecords (renamePresent PcRatio.columnsMapping df)))
          ts w).1 = some p := h
      cases hpr : PcRatio.processAll (toRecords
          (renamePresent PcRatio.columnsMapping df)) with
      | error e => rw [hpr] at h; simp [PcRatio.crawlTable] at h
      | ok data =>
        rw [hpr] at h
        replace h : (PcRatio.ratioFinish data ts
          (doWrites w [⟨PcRatio.outFile ts, .json data⟩,
            ⟨PcRatio.latestFile, .json data⟩])).1 = some p := h
        unfold PcRatio.ratioFinish at h
        split at h
        · split at h
          · split at h
            · exact (Option.some.inj h).symm
            · exact absurd h (by simp)
          · exact (Option.some.inj h).symm
        · exact absurd h (by simp)

theorem inst_check_some_path (latest : Option (Except Unit (List Record)))
    (today ts : String) (w : String → Bool) (primary : FetchOutcome)
    (cf : Institutional.CsvFetch) (p : String)
    (h : (Institutional.check_and_crawl latest today primary cf ts w).1 = some p) :
    p = Institutional.outFile ts ∨ p = Institutional.csvOutFile ts
      ∨ p = Institutional.latestFile := by
  rw [Institutional.check_and_crawl] at h
  split at h
  · cases hc : (Institutional.crawl_institutional_data primary ts w).1 with
    | some q =>
      simp only [hc] at h
      replace h : some q = some p := h
      exact Or.inl ((Option.some.inj h) ▸ inst_crawl_some_path primary ts w q hc)
    | none =>
      simp only [hc] at h
      replace h : (Institutional.download_csv_data cf ts w).1 = some p := h
      exact Or.inr (Or.inl (download_some_path cf ts w p h))
  · replace h : some Institutional.latestFile = some p := h
    exact Or.inr (Or.inr (Option.some.inj h).symm)

theorem ratio_check_some_path (latest : Option (Except Unit (List Record)))
    (today ts : String) (w : String → Bool) (primary : FetchOutcome) (p : String)
    (h : (PcRatio.check_and_crawl latest today primary ts w).1 = some p) :
    p = PcRatio.outFile ts ∨ p = PcRatio.latestFile := by
  rw [PcRatio.check_and_crawl] at h
  split at h
  · replace h : (PcRatio.crawl_pc_ratio primary ts w).1 = some p := h
    exact Or.inl (ratio_crawl_some_path primary ts w p h)
  · replace h : some PcRatio.latestFile = some p := h
    exact Or.inr (Option.some.inj h).symm

theorem inst_paths_length_pos (ts : String) :
    0 < (Institutional.outFile ts).length
    ∧ 0 < (Institutional.csvOutFile ts).length
    ∧ 0 < Institutional.latestFile.length
    ∧ 0 < (PcRatio.outFile ts).length
    ∧ 0 < PcRatio.latestFile.length := by
  have h1 : ("data/institutional_" : String).length = 19 := rfl
  have h2 : ("data/institutional_csv_" : String).length = 23 := rfl
  have h3 : ("data/pc_ratio_" : String).length = 14 := rfl
  have h4 : (".json" : String).length = 5 := rfl
  refine ⟨?_, ?_, by decide, ?_, by decide⟩
  · rw [Institutional.outFile, String.length_append, String.length_append, h1, h4]
    omega
  · rw [Institutional.csvOutFile, String.length_append, String.length_append, h2, h4]
    omega
  · rw [PcRatio.outFile, String.length_append, String.length_append, h3, h4]
    omega

/-- Claim C9: process exit contract. Whenever a run of either pipeline
returns an artifact path, the `__main__` block prints exactly the single
line `RESULT_FILE=<path>` and exits with status 0 (every producible path is
non-empty, hence truthy); when the run returns no path, nothing is printed
and the exit status is 1. -/
theorem c9_exit_contract (latest : Option (Except Unit (List Record)))
    (today ts : String) (writeOk : String → Bool) (primary : FetchOutcome)
    (cf : Institutional.CsvFetch) :
    (∀ p, (Institutional.check_and_crawl latest today primary cf ts writeOk).1 = some p →
      pyMain (Institutional.check_and_crawl latest today primary cf ts writeOk).1
        = (["RESULT_FILE=" ++ p], 0))
    ∧ ((Institutional.check_and_crawl latest today primary cf ts writeOk).1 = none →
      pyMain (Institutional.check_and_crawl latest today primary cf ts writeOk).1
        = ([], 1))
    ∧ (∀ p, (PcRatio.check_and_crawl latest today primary ts writeOk).1 = some p →
      pyMain (PcRatio.check_and_crawl latest today primary ts writeOk).1
        = (["RESULT_FILE=" ++ p], 0))
    ∧ ((PcRatio.check_and_crawl latest today primary ts writeOk).1 = none →
      pyMain (PcRatio.check_and_crawl latest today primary ts writeOk).1
        = ([], 1)) := by
  have hlen := inst_paths_length_pos ts
  refine ⟨?_, ?_, ?_, ?_⟩
  · intro p hp
    have hpos : 0 < p.length := by
      rcases inst_check_some_path latest today ts writeOk primary cf p hp with h | h | h
      · rw [h]; exact hlen.1
      · rw [h]; exact hlen.2.1
      · rw [h]; exact hlen.2.2.1
    rw [hp, pyMain, if_pos hpos]
  · intro hp
    rw [hp, pyMain]
  · intro p hp
    have hpos : 0 < p.length := by
      rcases ratio_check_some_path latest today ts writeOk primary p hp with h | h
      · rw [h]; exact hlen.2.2.2.1
      · rw [h]; exact hlen.2.2.2.2
    rw [hp, pyMain, if_pos hpos]
  · intro hp
    rw [hp, pyMain]

/-- Witness for C9: a fresh-data skip prints the latest path and exits 0. -/
theorem c9_exit_contract_witness :
    pyMain (Institutional.check_and_crawl
        (some (.ok [[("Date", Value.vstr "2025/10/12")]])) "2025/10/12"
        .fetchError ⟨none, fun _ => "", fun _ => .error ()⟩ "x" (fun _ => true)).1
      = (["RESULT_FILE=" ++ Institutional.latestFile], 0) := by
  exact (c9_exit_contract (some (.ok [[("Date", Value.vstr "2025/10/12")]]))
    "2025/10/12" "x" (fun _ => true) .fetchError
    ⟨none, fun _ => "", fun _ => .error ()⟩).1 Institutional.latestFile (by decide)


theorem take_prefix_of_append (pre suf ts : String) (n : Nat)
    (hn : pre.data.length = n) :
    (pre ++ ts ++ suf).data.take n = pre.data := by
  rw [String.data_append, String.data_append, List.append_assoc, ← hn, List.take_left]

theorem csvOut_ne_latest (ts : String) :
    Institutional.csvOutFile ts ≠ Institutional.latestFile := by
  intro h
  have h1 := take_prefix_of_append "data/institutional_csv_" ".json" ts 23 rfl
  rw [show Institutional.csvOutFile ts =
      "data/institutional_csv_" ++ ts ++ ".json" from rfl] at h
  rw [h] at h1
  have h2 : Institutional.latestFile.data.take 23 =
      ("data/institutional_late" : String).data := by decide
  rw [h2] at h1
  exact absurd h1 (by decide)

theorem csvRaw_ne_latest (ts : String) :
    Institutional.csvRawFile ts ≠ Institutional.latestFile := by
  intro h
  have h1 := take_prefix_of_append "data/institutional_raw_" ".csv" ts 23 rfl
  rw [show Institutional.csvRawFile ts =
      "data/institutional_raw_" ++ ts ++ ".csv" from rfl] at h
  rw [h] at h1
  have h2 : Institutional.latestFile.data.take 23 =
      ("data/institutional_late" : String).data := by decide
  rw [h2] at h1
  exact absurd h1 (by decide)

/-- Counterexample to claim C3 as stated: a successful CSV-fallback fetch
(here: empty body, trivially parsed) returns its timestamped path but its
writes do not include the fixed latest path — `institutional_latest.json`
is not updated by the fallback. -/
theorem c3_counterexample :
    (Institutional.download_csv_data ⟨some [], fun _ => "", fun _ => .ok []⟩
      "20250101000000" (fun _ => true)).1
        = some (Institutional.csvOutFile "20250101000000")
    ∧ Institutional.latestFile ∉
        (Institutional.download_csv_data ⟨some [], fun _ => "", fun _ => .ok []⟩
          "20250101000000" (fun _ => true)).2.map WriteOp.path := by
  exact ⟨rfl, by decide⟩

/-- Claim C3 (amended): every successful primary-mode fetch of either
pipeline writes the snapshot to its timestamped path and to the fixed
latest path, in that order, and returns the timestamped path; the CSV
fallback writes the snapshot only to its timestamped path plus the raw
decoded payload as a `.csv` companion — it does not touch the latest
artifact — and returns its timestamped path. -/
theorem c3_persister_two_locations (ts : String) (writeOk : String → Bool)
    (hw1 : writeOk (Institutional.outFile ts) = true)
    (hw2 : writeOk Institutional.latestFile = true)
    (hw3 : writeOk (Institutional.csvOutFile ts) = true)
    (hw4 : writeOk (Institutional.csvRawFile ts) = true)
    (hw5 : writeOk (PcRatio.outFile ts) = true)
    (hw6 : writeOk PcRatio.latestFile = true) :
    (∀ df rest data, Institutional.processTable df = .ok data →
      Institutional.crawl_institutional_data (.tables (df :: rest)) ts writeOk =
        (some (Institutional.outFile ts),
         [⟨Institutional.outFile ts, .json data⟩,
          ⟨Institutional.latestFile, .json data⟩]))
    ∧ (∀ cf : Institutional.CsvFetch, ∀ body data,
        cf.content = some body →
        Institutional.hasInfix Institutional.noDataSentinel body = false →
        Institutional.hasInfix Institutional.badDateSentinel body = false →
        cf.parse (cf.decode body) = .ok data →
        Institutional.download_csv_data cf ts writeOk =
          (some (Institutional.csvOutFile ts),
           [⟨Institutional.csvOutFile ts, .json data⟩,
            ⟨Institutional.csvRawFile ts, .text (cf.decode body)⟩])
        ∧ ∀ wop ∈ (Institutional.download_csv_data cf ts writeOk).2,
            wop.path ≠ Institutional.latestFile)
    ∧ (∀ df rest data,
        PcRatio.processAll (toRecords (renamePresent PcRatio.columnsMapping df))
          = .ok data →
        (data = [] ∨ PcRatio.summaryOk (data.headD []) = true) →
        PcRatio.crawl_pc_ratio (.tables (df :: rest)) ts writeOk =
          (some (PcRatio.outFile ts),
           [⟨PcRatio.outFile ts, .json data⟩,
            ⟨PcRatio.latestFile, .json data⟩])) := by
  refine ⟨?_, ?_, ?_⟩
  · intro df rest data hpt
    show Institutional.crawlTable (Institutional.processTable df) ts writeOk = _
    rw [hpt]
    simp [Institutional.crawlTable, writeStage, doWrites, hw1, hw2]
  · intro cf body data hb h1 h2 hp
    have hd : Institutional.download_csv_data cf ts writeOk =
        (some (Institutional.csvOutFile ts),
         [⟨Institutional.csvOutFile ts, .json data⟩,
          ⟨Institutional.csvRawFile ts, .text (cf.decode body)⟩]) := by
      rw [Institutional.download_csv_data, hb]
      simp [Institutional.downloadBody, Institutional.downloadParsed, h1, h2,
        hp, writeStage, doWrites, hw3, hw4]
    refine ⟨hd, ?_⟩
    intro wop hmem
    rw [hd] at hmem
    simp only [List.mem_cons, List.mem_singleton, List.not_mem_nil, or_false] at hmem
    rcases hmem with rfl | rfl
    · exact csvOut_ne_latest ts
    · exact csvRaw_ne_latest ts
  · intro df rest data hpr hs
    show PcRatio.crawlTable
        (PcRatio.processAll (toRecords (renamePresent PcRatio.columnsMapping df)))
        ts writeOk = _
    rw [hpr]
    rcases hs with rfl | hs
    · simp [PcRatio.crawlTable, PcRatio.ratioFinish, doWrites, hw5, hw6]
    · by_cases hlen : data.length > 0
      · have hs2 : PcRatio.summaryOk (data.head?.getD []) = true := by
          rw [← List.headD_eq_head?]
          exact hs
        simp [PcRatio.crawlTable, PcRatio.ratioFinish, doWrites, hw5, hw6, hlen, hs2]
      · simp [PcRatio.crawlTable, PcRatio.ratioFinish, doWrites, hw5, hw6, hlen]

/-- Witness for the amended C3 at a concrete institutional table. -/
theorem c3_persister_two_locations_witness :
    Institutional.crawl_institutional_data
      (.tables [⟨["契約"], [[Value.vstr "臺股期貨 202404"]]⟩])
      "20250101000000" (fun _ => true) =
      (some (Institutional.outFile "20250101000000"),
       [⟨Institutional.outFile "20250101000000",
         .json [[("Contract", Value.vstr "臺股期貨 202404"),
                 ("ContractName", Value.vstr "臺股期貨")]]⟩,
        ⟨Institutional.latestFile,
         .json [[("Contract", Value.vstr "臺股期貨 202404"),
                 ("ContractName", Value.vstr "臺股期貨")]]⟩]) := by
  exact (c3_persister_two_locations "20250101000000" (fun _ => true)
    rfl rfl rfl rfl rfl rfl).1
    ⟨["契約"], [[Value.vstr "臺股期貨 202404"]]⟩ []
    [[("Contract", Value.vstr "臺股期貨 202404"),
      ("ContractName", Value.vstr "臺股期貨")]] rfl

/-- Claim C10: persistence is not atomic on failure. The timestamped
artifact is written before the latest artifact; when the latest write
fails, the exception is caught and the crawl returns `None` even though
the timestamped history artifact is already on disk — in either pipeline a
`None` result does not imply that nothing was written. -/
theorem c10_partial_persist (ts : String) (writeOk : String → Bool)
    (dfR dfI : DataFrame) (restR restI : List DataFrame)
    (data dataI : List Record)
    (h1 : writeOk (PcRatio.outFile ts) = true)
    (h2 : writeOk PcRatio.latestFile = false)
    (h3 : PcRatio.processAll (toRecords (renamePresent PcRatio.columnsMapping dfR))
      = .ok data)
    (h4 : writeOk (Institutional.outFile ts) = true)
    (h5 : writeOk Institutional.latestFile = false)
    (h6 : Institutional.processTable dfI = .ok dataI) :
    PcRatio.crawl_pc_ratio (.tables (dfR :: restR)) ts writeOk =
      (none, [⟨PcRatio.outFile ts, .json data⟩])
    ∧ Institutional.crawl_institutional_data (.tables (dfI :: restI)) ts writeOk =
      (none, [⟨Institutional.outFile ts, .json dataI⟩]) := by
  constructor
  · show PcRatio.crawlTable
        (PcRatio.processAll (toRecords (renamePresent PcRatio.columnsMapping dfR)))
        ts writeOk = _
    rw [h3]
    simp [PcRatio.crawlTable, PcRatio.ratioFinish, doWrites, h1, h2]
  · show Institutional.crawlTable (Institutional.processTable dfI) ts writeOk = _
    rw [h6]
    simp [Institutional.crawlTable, writeStage, doWrites, h4, h5]

/-- Witness for C10: concrete tables, a filesystem that rejects the two
latest paths — both crawls fail yet have written their history artifact. -/
theorem c10_partial_persist_witness :
    PcRatio.crawl_pc_ratio (.tables [⟨["日期"], [[Value.vstr "113/04/15"]]⟩])
      "20250101000000"
      (fun p => !(p == "data/pc_ratio_latest.json"
        || p == "data/institutional_latest.json")) =
      (none, [⟨PcRatio.outFile "20250101000000",
        .json [[("Date", Value.vstr "2024/04/15")]]⟩]) := by
  exact (c10_partial_persist "20250101000000"
    (fun p => !(p == "data/pc_ratio_latest.json"
      || p == "data/institutional_latest.json"))
    ⟨["日期"], [[Value.vstr "113/04/15"]]⟩ ⟨["契約"], [[Value.vstr "臺股期貨 X"]]⟩
    [] [] [[("Date", Value.vstr "2024/04/15")]]
    [[("Contract", Value.vstr "臺股期貨 X"), ("ContractName", Value.vstr "臺股期貨")]]
    rfl rfl rfl rfl rfl rfl).1

/-- The total effect of the rename loop on one column name: the fold of
all applicable renames. -/
def chainApply (m : List (String × String)) (c : String) : String :=
  m.foldl (fun x p => if x = p.1 then p.2 else x) c

theorem renamePresent_eq (m : List (String × String)) (df : DataFrame) :
    renamePresent m df = ⟨df.cols.map (chainApply m), df.rows⟩ := by
  induction m generalizing df with
  | nil =>
    cases df with
    | mk cols rows =>
      simp only [renamePresent, List.foldl_nil]
      congr 1
      exact (List.map_id cols).symm
  | cons p m ih =>
    have hstep : (if p.1 ∈ df.cols then renameCol df p.1 p.2 else df)
        = renameCol df p.1 p.2 := by
      by_cases hp : p.1 ∈ df.cols
      · rw [if_pos hp]
      · rw [if_neg hp]
        cases df with
        | mk cols rows =>
          simp only [renameCol]
          have h1 : cols.map (fun x => if x = p.1 then p.2 else x) = cols.map id := by
            apply List.map_congr_left
            intro a ha
            rw [if_neg (fun he : a = p.1 => hp (he ▸ ha))]
            rfl
          rw [h1, List.map_id]
    rw [show renamePresent (p :: m) df
        = renamePresent m (if p.1 ∈ df.cols then renameCol df p.1 p.2 else df) from rfl]
    rw [hstep, ih]
    cases df with
    | mk cols rows =>
      simp only [renameCol, List.map_map]
      rfl

theorem chainApply_not_key (m : List (String × String)) (c : String)
    (h : ∀ p ∈ m, p.1 ≠ c) : chainApply m c = c := by
  induction m with
  | nil => rfl
  | cons p m ih =>
    show List.foldl _ (if c = p.1 then p.2 else c) m = c
    rw [if_neg (fun he => h p (List.mem_cons_self p m) he.symm)]
    exact ih (fun q hq => h q (List.mem_cons_of_mem p hq))

theorem chainApply_ratio_date (c : String)
    (h : chainApply PcRatio.columnsMapping c = "Date") :
    c = "日期" ∨ c = "Date" := by
  by_cases h1 : c = "日期"
  · exact Or.inl h1
  by_cases h2 : c = "買權成交量"
  · subst h2; exact absurd h (by decide)
  by_cases h3 : c = "賣權成交量"
  · subst h3; exact absurd h (by decide)
  by_cases h4 : c = "買賣權成交量比率%"
  · subst h4; exact absurd h (by decide)
  by_cases h5 : c = "買權未平倉量"
  · subst h5; exact absurd h (by decide)
  by_cases h6 : c = "賣權未平倉量"
  · subst h6; exact absurd h (by decide)
  by_cases h7 : c = "買賣權未平倉量比率%"
  · subst h7; exact absurd h (by decide)
  have hc : chainApply PcRatio.columnsMapping c = c := by
    apply chainApply_not_key
    intro p hp
    simp only [PcRatio.columnsMapping, List.mem_cons, List.mem_singleton,
      List.not_mem_nil, or_false] at hp
    rcases hp with rfl | rfl | rfl | rfl | rfl | rfl | rfl
    · exact fun he => h1 he.symm
    · exact fun he => h2 he.symm
    · exact fun he => h3 he.symm
    · exact fun he => h4 he.symm
    · exact fun he => h5 he.symm
    · exact fun he => h6 he.symm
    · exact fun he => h7 he.symm
  rw [hc] at h
  exact Or.inr h

theorem lookup?_zip_none (cols : List String) (vs : List Value) (k : String)
    (h : k ∉ cols) : lookup? (cols.zip vs) k = none := by
  induction cols generalizing vs with
  | nil => simp [lookup?]
  | cons c cs ih =>
    cases vs with
    | nil => simp [lookup?]
    | cons v vs =>
      rw [List.zip_cons_cons, lookup?_cons]
      rw [if_neg (fun he : c = k => h (he ▸ List.mem_cons_self c cs))]
      exact ih vs (fun hm => h (List.mem_cons_of_mem c hm))

/-- Counterexample to claim C7 as stated: a fetched table whose date
header is missing (one column, one row) makes the ratio pipeline fail —
the per-record date access raises `KeyError`, so the crawl returns `None`
with nothing written, i.e. the pipeline does fail just because an expected
header (the date header) is missing. -/
theorem c7_counterexample :
    PcRatio.crawl_pc_ratio
      (.tables [⟨["買權成交量"], [[Value.vnum 100]]⟩]) "20250101000000"
      (fun _ => true) = (none, []) := by
  decide

/-- Claim C7 (amended): the column mapper is non-destructive — it warns
exactly about mapped headers absent from the table, renames only headers
actually present (a name that is no mapping key is untouched, absent
headers are never inserted), and touches no row data. A missing mapped
header is not fatal to the mapper itself; however the pipeline can still
fail on a missing header: the institutional pipeline succeeds whatever
mapped headers are missing provided the contract-description header is
present (and the writes succeed), while the ratio pipeline fails whenever
the date header is missing and the table has at least one row. -/
theorem c7_column_mapping (m : List (String × String)) (df : DataFrame)
    (c ts : String) (writeOk : String → Bool)
    (hw1 : writeOk (Institutional.outFile ts) = true)
    (hw2 : writeOk Institutional.latestFile = true) :
    (c ∈ missingHeaders m df ↔ (∃ e, (c, e) ∈ m) ∧ c ∉ df.cols)
    ∧ (renamePresent m df).rows = df.rows
    ∧ (renamePresent m df).cols = df.cols.map (chainApply m)
    ∧ ((∀ p ∈ m, p.1 ≠ c) → chainApply m c = c)
    ∧ (∀ df2 : DataFrame, ∀ rest, "契約" ∈ df2.cols →
        (Institutional.crawl_institutional_data (.tables (df2 :: rest)) ts writeOk).1
          = some (Institutional.outFile ts))
    ∧ (∀ df2 : DataFrame, ∀ rest, "日期" ∉ df2.cols → "Date" ∉ df2.cols →
        df2.rows ≠ [] →
        PcRatio.crawl_pc_ratio (.tables (df2 :: rest)) ts writeOk = (none, [])) := by
  refine ⟨?_, ?_, ?_, chainApply_not_key m c, ?_, ?_⟩
  · simp only [missingHeaders, List.mem_map, List.mem_filter]
    constructor
    · rintro ⟨p, ⟨hpm, hpc⟩, rfl⟩
      refine ⟨⟨p.2, hpm⟩, ?_⟩
      simpa using hpc
    · rintro ⟨⟨e, hce⟩, hnc⟩
      exact ⟨(c, e), ⟨hce, by simpa using hnc⟩, rfl⟩
  · rw [renamePresent_eq]
  · rw [renamePresent_eq]
  · intro df2 rest hk
    have hContract : "Contract" ∈ (renamePresent Institutional.columnsMapping df2).cols := by
      rw [renamePresent_eq]
      exact List.mem_map.mpr ⟨"契約", hk, by decide⟩
    have hcn : "ContractName"
        ∈ (addContractNameCol (renamePresent Institutional.columnsMapping df2)).cols := by
      rw [addContractNameCol, if_pos hContract]
      exact List.mem_append_right _ (List.mem_singleton.mpr rfl)
    obtain ⟨dfx, hfs⟩ : ∃ dfx,
        instFilterStep (addContractNameCol
          (renamePresent Institutional.columnsMapping df2)) = .ok dfx := by
      simp only [instFilterStep]
      rw [if_pos hcn]
      split
      · exact ⟨_, rfl⟩
      · exact ⟨_, rfl⟩
    have hpt : Institutional.processTable df2
        = .ok ((toRecords dfx).map Institutional.processItem) := by
      unfold Institutional.processTable
      rw [hfs]
      rfl
    show (Institutional.crawlTable (Institutional.processTable df2) ts writeOk).1 = _
    rw [hpt]
    simp [Institutional.crawlTable, writeStage, doWrites, hw1, hw2]
  · intro df2 rest hd1 hd2 hrows
    show PcRatio.crawlTable
        (PcRatio.processAll (toRecords (renamePresent PcRatio.columnsMapping df2)))
        ts writeOk = _
    have hdate : "Date" ∉ (renamePresent PcRatio.columnsMapping df2).cols := by
      rw [renamePresent_eq]
      intro hm
      obtain ⟨c2, hc2, hcd⟩ := List.mem_map.mp hm
      rcases chainApply_ratio_date c2 hcd with rfl | rfl
      · exact hd1 hc2
      · exact hd2 hc2
    obtain ⟨v0, vrest, hv⟩ : ∃ v0 vrest, df2.rows = v0 :: vrest := by
      cases hr : df2.rows with
      | nil => exact absurd hr hrows
      | cons a b => exact ⟨a, b, rfl⟩
    have hrrows : (renamePresent PcRatio.columnsMapping df2).rows = v0 :: vrest := by
      rw [renamePresent_eq]
      exact hv
    have hrec : toRecords (renamePresent PcRatio.columnsMapping df2) =
        ((renamePresent PcRatio.columnsMapping df2).cols.zip v0) ::
          vrest.map (fun vs => (renamePresent PcRatio.columnsMapping df2).cols.zip vs) := by
      unfold toRecords
      rw [hrrows, List.map_cons]
    have hpi : PcRatio.processItem
        ((renamePresent PcRatio.columnsMapping df2).cols.zip v0) = .error () := by
      have hl := lookup?_zip_none
        (renamePresent PcRatio.columnsMapping df2).cols v0 "Date" hdate
      unfold PcRatio.processItem
      rw [hl]
    have hpa : PcRatio.processAll
        (toRecords (renamePresent PcRatio.columnsMapping df2)) = .error () := by
      rw [hrec]
      simp only [PcRatio.processAll, hpi]
    rw [hpa]
    rfl

/-- Witness for the amended C7: the institutional pipeline succeeds on a
table that has only the contract header — every other mapped header is
missing, including the date header. -/
theorem c7_column_mapping_witness :
    (Institutional.crawl_institutional_data
      (.tables [⟨["契約"], [[Value.vstr "臺股期貨 X"]]⟩]) "20250101000000"
      (fun _ => true)).1 = some (Institutional.outFile "20250101000000") := by
  exact (c7_column_mapping [] ⟨[], []⟩ "" "20250101000000" (fun _ => true)
    rfl rfl).2.2.2.2.1 ⟨["契約"], [[Value.vstr "臺股期貨 X"]]⟩ [] (by decide)

theorem latestStep_none_vstr (s : String) (hsne : s ≠ "") :
    Institutional.latestStep none (some (.vstr s)) = .ok (some (.vstr s)) := by
  simp [Institutional.latestStep, truthy, hsne]

theorem latestStep_some_vstr (a s : String) (hsne : s ≠ "") :
    Institutional.latestStep (some (.vstr a)) (some (.vstr s))
      = .ok (some (.vstr (if a < s then s else a))) := by
  by_cases hlt : a < s
  · simp [Institutional.latestStep, truthy, pyGt, hsne, hlt]
  · simp [Institutional.latestStep, truthy, pyGt, hsne, hlt]

theorem latestLoop_max (today : String) (data : List Record) :
    ∀ a : String,
      (∀ r ∈ data, ∃ s, lookup? r "Date" = some (.vstr s) ∧ s ≠ "" ∧ ¬ today < s) →
      ¬ today < a →
      ((∃ r ∈ data, lookup? r "Date" = some (.vstr today)) ∨ a = today) →
      Institutional.latestLoop data (some (.vstr a)) = .ok (some (.vstr today)) := by
  induction data with
  | nil =>
    intro a _ _ hw
    rcases hw with ⟨r, hr, _⟩ | rfl
    · exact absurd hr (List.not_mem_nil r)
    · rfl
  | cons r rs ih =>
    intro a hall ha hw
    obtain ⟨s, hs, hsne, hsle⟩ := hall r (List.mem_cons_self r rs)
    show (match Institutional.latestStep (some (.vstr a)) (lookup? r "Date") with
          | .error e => Except.error e
          | .ok acc2 => Institutional.latestLoop rs acc2) = _
    rw [hs, latestStep_some_vstr a s hsne]
    show Institutional.latestLoop rs (some (.vstr (if a < s then s else a))) = _
    apply ih
    · exact fun r2 hr2 => hall r2 (List.mem_cons_of_mem r hr2)
    · by_cases h : a < s
      · rw [if_pos h]; exact hsle
      · rw [if_neg h]; exact ha
    · rcases hw with ⟨r0, hr0, hd0⟩ | rfl
      · rcases List.mem_cons.mp hr0 with rfl | hr0rs
        · right
          have hst : s = today := by
            rw [hs] at hd0
            exact Value.vstr.inj (Option.some.inj hd0)
          subst hst
          by_cases h : a < s
          · rw [if_pos h]
          · rw [if_neg h]
            exact le_antisymm (not_lt.mp ha) (not_lt.mp h)
        · exact Or.inl ⟨r0, hr0rs, hd0⟩
      · right
        rw [if_neg hsle]

theorem inst_attempts_of_need (latest : Option (Except Unit (List Record)))
    (today ts : String) (w : String → Bool) (primary : FetchOutcome)
    (cf : Institutional.CsvFetch)
    (hn : Institutional.needCrawl latest today = true) :
    (Institutional.check_and_crawl latest today primary cf ts w).2.2 ≠ [] := by
  rw [Institutional.check_and_crawl, if_pos hn]
  cases hc : (Institutional.crawl_institutional_data primary ts w).1 with
  | some p => simp [hc]
  | none => simp [hc]

theorem ratio_attempts_of_need (latest : Option (Except Unit (List Record)))
    (today ts : String) (w : String → Bool) (primary : FetchOutcome)
    (hn : PcRatio.needCrawl latest today = true) :
    (PcRatio.check_and_crawl latest today primary ts w).2.2 ≠ [] := by
  rw [PcRatio.check_and_crawl, if_pos hn]
  simp

/-- Claim C1: freshness gate. When the latest artifact parses as a
non-empty record list whose representative date equals today — the lexical
maximum of the (non-empty, string) `Date` fields for the institutional
pipeline, the first record's `Date` for the ratio pipeline — the run
performs no fetch, writes nothing, and returns the fixed latest path. When
the artifact is absent, unreadable, or its date cannot be determined (loop
finds no date or raises, first record lacks the key), the run proceeds to
fetch. -/
theorem c1_freshness_gate (today ts : String) (writeOk : String → Bool)
    (primary : FetchOutcome) (cf : Institutional.CsvFetch)
    (instData ratioData : List Record)
    (h1 : instData ≠ [])
    (h2 : ∀ r ∈ instData, ∃ s, lookup? r "Date" = some (.vstr s) ∧ s ≠ "" ∧ ¬ today < s)
    (h3 : ∃ r ∈ instData, lookup? r "Date" = some (.vstr today))
    (h4 : ∃ r rs, ratioData = r :: rs ∧ lookup? r "Date" = some (.vstr today)) :
    Institutional.check_and_crawl (some (.ok instData)) today primary cf ts writeOk
      = (some Institutional.latestFile, [], [])
    ∧ PcRatio.check_and_crawl (some (.ok ratioData)) today primary ts writeOk
      = (some PcRatio.latestFile, [], [])
    ∧ (Institutional.check_and_crawl none today primary cf ts writeOk).2.2 ≠ []
    ∧ (Institutional.check_and_crawl (some (.error ())) today primary cf ts writeOk).2.2 ≠ []
    ∧ (PcRatio.check_and_crawl none today primary ts writeOk).2.2 ≠ []
    ∧ (PcRatio.check_and_crawl (some (.error ())) today primary ts writeOk).2.2 ≠ []
    ∧ (∀ data : List Record, Institutional.latestDate data = .ok none →
        (Institutional.check_and_crawl (some (.ok data)) today primary cf ts writeOk).2.2 ≠ [])
    ∧ (∀ data : List Record, Institutional.latestDate data = .error () →
        (Institutional.check_and_crawl (some (.ok data)) today primary cf ts writeOk).2.2 ≠ [])
    ∧ (∀ (r : Record) (rs : List Record), lookup? r "Date" = none →
        (PcRatio.check_and_crawl (some (.ok (r :: rs))) today primary ts writeOk).2.2 ≠ []) := by
  have hinstNeed : Institutional.needCrawl (some (.ok instData)) today = false := by
    cases instData with
    | nil => exact absurd rfl h1
    | cons r rs =>
      obtain ⟨s, hs, hsne, hsle⟩ := h2 r (List.mem_cons_self r rs)
      have hld : Institutional.latestDate (r :: rs) = .ok (some (.vstr today)) := by
        unfold Institutional.latestDate
        show (match Institutional.latestStep none (lookup? r "Date") with
              | .error e => Except.error e
              | .ok acc2 => Institutional.latestLoop rs acc2) = _
        rw [hs, latestStep_none_vstr s hsne]
        show Institutional.latestLoop rs (some (.vstr s)) = _
        apply latestLoop_max
        · exact fun r2 hr2 => h2 r2 (List.mem_cons_of_mem r hr2)
        · exact hsle
        · obtain ⟨r0, hr0, hd0⟩ := h3
          rcases List.mem_cons.mp hr0 with rfl | hr0rs
          · right
            rw [hs] at hd0
            exact Value.vstr.inj (Option.some.inj hd0)
          · exact Or.inl ⟨r0, hr0rs, hd0⟩
      show (if (r :: rs).length > 0 then
          Institutional.needCrawlVerdict (Institutional.latestDate (r :: rs)) today
        else true) = false
      rw [if_pos (by simp), hld]
      simp [Institutional.needCrawlVerdict, pyEqStr]
  have hratioNeed : PcRatio.needCrawl (some (.ok ratioData)) today = false := by
    obtain ⟨r, rs, rfl, hd⟩ := h4
    show PcRatio.ratioVerdict (lookup? r "Date") today = false
    rw [hd]
    simp [PcRatio.ratioVerdict, pyEqStr]
  refine ⟨?_, ?_, ?_, ?_, ?_, ?_, ?_, ?_, ?_⟩
  · rw [Institutional.check_and_crawl, if_neg (by simp [hinstNeed])]
  · rw [PcRatio.check_and_crawl, if_neg (by simp [hratioNeed])]
  · exact inst_attempts_of_need none today ts writeOk primary cf rfl
  · exact inst_attempts_of_need (some (.error ())) today ts writeOk primary cf rfl
  · exact ratio_attempts_of_need none today ts writeOk primary rfl
  · exact ratio_attempts_of_need (some (.error ())) today ts writeOk primary rfl
  · intro data hld
    apply inst_attempts_of_need
    show (if data.length > 0 then
        Institutional.needCrawlVerdict (Institutional.latestDate data) today
      else true) = true
    by_cases hlen : data.length > 0
    · rw [if_pos hlen, hld]; rfl
    · rw [if_neg hlen]
  · intro data hld
    apply inst_attempts_of_need
    show (if data.length > 0 then
        Institutional.needCrawlVerdict (Institutional.latestDate data) today
      else true) = true
    by_cases hlen : data.length > 0
    · rw [if_pos hlen, hld]; rfl
    · rw [if_neg hlen]
  · intro r rs hd
    apply ratio_attempts_of_need
    show PcRatio.ratioVerdict (lookup? r "Date") today = true
    rw [hd]
    rfl

/-- Witness for C1: a one-record latest artifact dated today makes both
gates skip fetching and return the fixed latest path. -/
theorem c1_freshness_gate_witness :
    Institutional.check_and_crawl (some (.ok [[("Date", Value.vstr "2025/10/12")]]))
      "2025/10/12" .fetchError ⟨none, fun _ => "", fun _ => .error ()⟩ "x"
      (fun _ => true) = (some Institutional.latestFile, [], [])
    ∧ PcRatio.check_and_crawl (some (.ok [[("Date", Value.vstr "2025/10/12")]]))
      "2025/10/12" .fetchError "x" (fun _ => true)
      = (some PcRatio.latestFile, [], []) := by
  have h := c1_freshness_gate "2025/10/12" "x" (fun _ => true) .fetchError
    ⟨none, fun _ => "", fun _ => .error ()⟩
    [[("Date", Value.vstr "2025/10/12")]] [[("Date", Value.vstr "2025/10/12")]]
    (by decide)
    (by
      intro r hr
      simp only [List.mem_singleton] at hr
      subst hr
      exact ⟨"2025/10/12", by decide, by decide, lt_irrefl "2025/10/12"⟩)
    ⟨[("Date", Value.vstr "2025/10/12")], List.mem_singleton.mpr rfl, by decide⟩
    ⟨[("Date", Value.vstr "2025/10/12")], [], rfl, by decide⟩
  exact ⟨h.1, h.2.1⟩

end Taifex



